import Mathlib

/-!
Verification of the fish-renamer filename grammar, assembler, batch-diff
engine, undo orchestration and external-tool session.

Python strings are modelled as `List Char`; Python's `None`-or-string
results as `Option (List Char)`; lookup collaborators (`data_manager`)
as function parameters returning `[]` for the empty-string "not found"
result; raised `ValueError`s as `Except.error`.

The regex patterns of `constants.py` are embedded as deterministic
decidable matchers.  This is justified as follows: every capturing field
of `PATTERN_BASIC_FILENAME` and `PATTERN_IDENTITY_FILENAME` is a
character class that excludes the separator `_` and is immediately
followed by a literal `_` in the pattern, so under Python's backtracking
semantics each such field is forced to bind exactly the text up to the
next `_` (no other decomposition can place the required literal `_`).
Hence a name matches iff its `_`-split token list satisfies the
per-token class checks, and the captured groups are exactly the tokens.
The trailing `(.*?)(?:_G)?$` of the identity pattern binds, lazily, the
remainder minus a final literal `_G` when one is present, and the
trailing `[A-Za-z0-9]+(?:_G)?$` of the basic pattern accepts remainders
that are one alphanumeric token optionally followed by the single token
`G`.  Names are assumed newline-free (true of the application's file
names), so `.` and `$` need no newline special cases.
-/

namespace FishRenamer

/-- Character list of a string literal (Python `str` values). -/
def str (s : String) : List Char := s.toList

/-- Python `s.split(sep)` for a one-character separator. -/
def splitOnChar (sep : Char) : List Char → List (List Char)
  | [] => [[]]
  | c :: rest =>
    match splitOnChar sep rest with
    | [] => [[]]
    | t :: ts => if c = sep then [] :: t :: ts else (c :: t) :: ts

/-- Split on the `_` separator (Python `split('_')`). -/
def splitU (s : List Char) : List (List Char) := splitOnChar '_' s

/-- Python `'_'.join(parts)`. -/
def joinU : List (List Char) → List Char
  | [] => []
  | [t] => t
  | t :: ts => t ++ '_' :: joinU ts

/-- `s` ends with the two-character suffix `a` `b` (Python `s.endswith`). -/
def ends2 (s : List Char) (a b : Char) : Bool :=
  match s.reverse with
  | y :: x :: _ => x == a && y == b
  | _ => false

/-- Python `s[:-2]`: drop the final two characters. -/
def dropLast2 (s : List Char) : List Char := s.dropLast.dropLast

/-- Regex class `[A-Z0-9]`. -/
def isUpperDigit (c : Char) : Bool := c.isUpper || c.isDigit

/-- Author-code token: `[A-Za-z]{5}`. -/
def authorOk (t : List Char) : Bool := t.length == 5 && t.all Char.isAlpha

/-- Site-string token: `[A-Z]{3}-[A-Za-z]+-[A-Z0-9]{3}` (the middle
segment excludes `-`, so the `-`-split decomposition is forced). -/
def siteOk (t : List Char) : Bool :=
  match splitOnChar '-' t with
  | [a, b, c] =>
    a.length == 3 && a.all Char.isUpper && !b.isEmpty && b.all Char.isAlpha &&
    c.length == 3 && c.all isUpperDigit
  | _ => false

/-- Date token: `\d{4}-\d{2}-\d{2}`. -/
def dateOk (t : List Char) : Bool :=
  match splitOnChar '-' t with
  | [a, b, c] =>
    a.length == 4 && b.length == 2 && c.length == 2 &&
    (a ++ b ++ c).all Char.isDigit
  | _ => false

/-- Time token: `\d{2}-\d{2}-\d{2}`. -/
def timeOk (t : List Char) : Bool :=
  match splitOnChar '-' t with
  | [a, b, c] =>
    a.length == 2 && b.length == 2 && c.length == 2 &&
    (a ++ b ++ c).all Char.isDigit
  | _ => false

/-- Activity / phase / genus token: `[A-Za-z]+`. -/
def alphaOk (t : List Char) : Bool := !t.isEmpty && t.all Char.isAlpha

/-- Camera token: `[A-Z]-[A-Za-z0-9]+` (tail excludes `-`). -/
def cameraOk (t : List Char) : Bool :=
  match splitOnChar '-' t with
  | [u, r] => u.length == 1 && u.all Char.isUpper && !r.isEmpty && r.all Char.isAlphanum
  | _ => false

/-- Basic original-name token: `[A-Za-z0-9]+`. -/
def origOk (t : List Char) : Bool := !t.isEmpty && t.all Char.isAlphanum

/-- The tokens after the camera field of the basic pattern: the regex
tail `[A-Za-z0-9]+(?:_G)?$` accepts one alphanumeric token, optionally
followed by the literal token `G`. -/
def tailOrigOk : List (List Char) → Bool
  | [w] => origOk w
  | [w, g] => origOk w && g == ['G']
  | _ => false

/-- `PATTERN_BASIC_FILENAME` of `constants.py` (`regex_match_basic`),
as a decidable matcher; the Python pattern has no capturing groups, so
only the boolean outcome exists. -/
def regex_match_basic (s : List Char) : Bool :=
  let ts := splitU s
  authorOk (ts.getD 0 []) && siteOk (ts.getD 1 []) && dateOk (ts.getD 2 []) &&
  timeOk (ts.getD 3 []) && alphaOk (ts.getD 4 []) && cameraOk (ts.getD 5 []) &&
  tailOrigOk (ts.drop 6)

/-- Family token: `0?\-?[A-Za-z]*` (the optional `0` and `-` are forced
when present, since neither is a letter). -/
def famOk (t : List Char) : Bool :=
  let t1 := match t with | '0' :: r => r | _ => t
  let t2 := match t1 with | '-' :: r => r | _ => t1
  t2.all Char.isAlpha

/-- Species token: `[a-z]+`. -/
def speciesOk (t : List Char) : Bool := !t.isEmpty && t.all Char.isLower

/-- Stage-tag token: `[A-Z]` — any single uppercase letter (the pattern
comment says `Separator 'B'` but the class accepts all of `A`–`Z`). -/
def tagOk (t : List Char) : Bool :=
  match t with
  | [c] => c.isUpper
  | _ => false

/-- Confidence token: `[a-z]{2}`. -/
def confOk (t : List Char) : Bool := t.length == 2 && t.all Char.isLower

/-- Colour / behaviour token: `[A-Za-z\-]+`. -/
def hyphAlphaOk (t : List Char) : Bool :=
  !t.isEmpty && t.all (fun c => c.isAlpha || c == '-')

/-- `PATTERN_IDENTITY_FILENAME` of `constants.py` with its 14 capturing
groups (family, genus, species, confidence, phase, colour, behaviour,
author, site, date, time, activity, camera, original name); the stage
tag `[A-Z]` is not captured.  The lazy `(.*?)(?:_G)?$` binds the
post-camera remainder minus a final `_G` when present. -/
def identityGroups (s : List Char) : Option (List (List Char)) :=
  let ts := splitU s
  if ts.length < 15 then none
  else if famOk (ts.getD 0 []) && alphaOk (ts.getD 1 []) && speciesOk (ts.getD 2 []) &&
      tagOk (ts.getD 3 []) && confOk (ts.getD 4 []) && alphaOk (ts.getD 5 []) &&
      hyphAlphaOk (ts.getD 6 []) && hyphAlphaOk (ts.getD 7 []) && authorOk (ts.getD 8 []) &&
      siteOk (ts.getD 9 []) && dateOk (ts.getD 10 []) && timeOk (ts.getD 11 []) &&
      alphaOk (ts.getD 12 []) && cameraOk (ts.getD 13 []) then
    let r := joinU (ts.drop 14)
    some [ts.getD 0 [], ts.getD 1 [], ts.getD 2 [], ts.getD 4 [], ts.getD 5 [],
          ts.getD 6 [], ts.getD 7 [], ts.getD 8 [], ts.getD 9 [], ts.getD 10 [],
          ts.getD 11 [], ts.getD 12 [], ts.getD 13 [],
          if ends2 r '_' 'G' then dropLast2 r else r]
  else none

/-- `regex_match_identity` of `filename_assembler.py` as a boolean. -/
def regex_match_identity (s : List Char) : Bool := (identityGroups s).isSome

/-- `FilenameAssembler.assemble_basic_filename`.  The data-manager
lookups `get_user_code` and `get_divesite_string` are passed as
functions returning `[]` (Python's `""`) for unknown inputs; the
`site_tuple` is a pair, so Python's `len(site_tuple) != 2` check is
satisfied by typing.  `original_filename.replace('_','')` is the
underscore filter, and `_N` is appended. -/
def assemble_basic_filename (get_user_code : List Char → List Char)
    (get_divesite_string : List Char → List Char → List Char)
    (original_filename file_date author_name : List Char)
    (site_tuple : List Char × List Char) (activity camera : List Char) :
    Option (List Char) :=
  if regex_match_basic original_filename || regex_match_identity original_filename then
    none
  else if author_name.isEmpty then none
  else if (get_user_code author_name).isEmpty ||
      (get_divesite_string site_tuple.1 site_tuple.2).isEmpty ||
      file_date.isEmpty || activity.isEmpty || camera.isEmpty then none
  else
    some (get_user_code author_name ++ '_' ::
          get_divesite_string site_tuple.1 site_tuple.2 ++ '_' ::
          file_date ++ '_' :: activity ++ '_' :: camera ++ '_' ::
          original_filename.filter (fun c => c != '_') ++ ['_', 'N'])

/-- Lookup of `data_manager.get_user_code` restricted to the data rows
used in the spec's scenario: `"Jane Diver" → "JDIVE"`. -/
def janeLookup (n : List Char) : List Char :=
  if n = str "Jane Diver" then str "JDIVE" else []

/-- Lookup of `data_manager.get_divesite_string` restricted to the
spec's scenario: `("Indonesia", "Bangka") → "IDN-Bangka-BTI"`. -/
def bangkaLookup (area site : List Char) : List Char :=
  if area = str "Indonesia" ∧ site = str "Bangka" then str "IDN-Bangka-BTI" else []

/-- The Basic-stage name of the spec's scenario, as produced by
`assemble_basic_filename`. -/
def exampleBasicName : List Char :=
  str "JDIVE_IDN-Bangka-BTI_2024-01-15_14-30-45_diving_S-A7IV_DSC0001_N"

/-- Prefix shape `\d{4}-\d{2}-\d{2}_\d{2}-\d{2}-\d{2}_` used inside
`PATTERN_BASIC_BASENAME`. -/
def dtPrefixOk : List Char → Bool
  | a :: b :: c :: d :: '-' :: e :: f :: '-' :: g :: h :: '_' ::
    i :: j :: '-' :: k :: l :: '-' :: m :: n :: '_' :: _ =>
    [a, b, c, d, e, f, g, h, i, j, k, l, m, n].all Char.isDigit
  | _ => false

/-- Whether some position of the list holds a `_` followed by the
date-time prefix shape (the `.*?_\d{4}-…_` part of
`PATTERN_BASIC_BASENAME`; the lazy `.*?` only fixes which occurrence is
used, not whether one exists, and the trailing `.*` always reaches the
end of the string, so the captured group is a suffix). -/
def hasUscoreDt : List Char → Bool
  | [] => false
  | c :: rest => (c == '_' && dtPrefixOk rest) || hasUscoreDt rest

/-- A position starts a `PATTERN_BASIC_BASENAME` match: five letters,
`_`, and somewhere later `_` followed by the date-time shape. -/
def startsBasename (s : List Char) : Bool :=
  match s with
  | a :: b :: c :: d :: e :: '_' :: t =>
    [a, b, c, d, e].all Char.isAlpha && hasUscoreDt t
  | _ => false

/-- `PATTERN_BASIC_BASENAME.search`: leftmost match; group 1 is the
whole match, which extends to the end of the string because the pattern
ends in a greedy `.*`. -/
def basenameSearch : List Char → Option (List Char)
  | [] => none
  | c :: rest =>
    if startsBasename (c :: rest) then some (c :: rest)
    else basenameSearch rest

/-- `FilenameAssembler.assemble_identity_filename`: rejects names that
already match the identity pattern or do not match the basic pattern,
extracts the basic payload with `PATTERN_BASIC_BASENAME`, rejects empty
fields, and emits the taxonomy block, the literal tag `B`, the payload
and the `_N` marker. -/
def assemble_identity_filename
    (existing_filename family genus species confidence phase colour behaviour :
      List Char) : Option (List Char) :=
  if regex_match_identity existing_filename then none
  else if !regex_match_basic existing_filename then none
  else
    match basenameSearch existing_filename with
    | none => none
    | some base_name =>
      if family.isEmpty || genus.isEmpty || species.isEmpty || confidence.isEmpty ||
          phase.isEmpty || colour.isEmpty || behaviour.isEmpty || base_name.isEmpty then
        none
      else
        some (family ++ '_' :: genus ++ '_' :: species ++ '_' :: 'B' :: '_' ::
              confidence ++ '_' :: phase ++ '_' :: colour ++ '_' :: behaviour ++ '_' ::
              base_name ++ ['_', 'N'])

/-- `MainWindow._construct_gps_filename`: keep a trailing `_G`, turn a
trailing `_N` into `_G`, append `_G` to marker-less names matching the
identity or basic pattern, and reject everything else. -/
def construct_gps_filename (filename_without_ext : List Char) : Option (List Char) :=
  if ends2 filename_without_ext '_' 'G' then some filename_without_ext
  else if ends2 filename_without_ext '_' 'N' then
    some (dropLast2 filename_without_ext ++ ['_', 'G'])
  else if regex_match_identity filename_without_ext then
    some (filename_without_ext ++ ['_', 'G'])
  else if regex_match_basic filename_without_ext then
    some (filename_without_ext ++ ['_', 'G'])
  else none

/-- Index of the last occurrence of `c` in `s`, if any. -/
def lastIdx (s : List Char) (c : Char) : Option Nat :=
  match s.reverse.findIdx? (fun x => x == c) with
  | some k => some (s.length - 1 - k)
  | none => none

/-- `os.path.splitext(p)[0]` (POSIX): cut at the last dot when it lies
after the last path separator and the base name is not all dots before
it. -/
def splitextRoot (p : List Char) : List Char :=
  let sepIdx : Int := match lastIdx p '/' with | some k => (k : Int) | none => -1
  let dotIdx : Int := match lastIdx p '.' with | some k => (k : Int) | none => -1
  if sepIdx < dotIdx then
    let mid := (p.drop (sepIdx + 1).toNat).take (dotIdx - sepIdx - 1).toNat
    if mid.any (fun c => c != '.') then p.take dotIdx.toNat else p
  else p

/-- `os.path.basename` (POSIX): the part after the last `/`. -/
def basename (p : List Char) : List Char :=
  match lastIdx p '/' with
  | some k => p.drop (k + 1)
  | none => p

/-- `os.path.basename(os.path.splitext(filename)[0])` as used by the
batch analyzers. -/
def stripDirExt (p : List Char) : List Char := basename (splitextRoot p)

/-- The per-file loop of `analyze_files_for_editing`: parse every
basename against the identity pattern, raising (returning `error`) at
the first failure, exactly as the Python `for` loop raises
`ValueError` and discards all work done so far. -/
def parseRecords : List (List Char) → Except (List Char) (List (List (List Char)))
  | [] => Except.ok []
  | f :: fs =>
    match identityGroups (stripDirExt f) with
    | none => Except.error (str "Invalid filename format: " ++ stripDirExt f)
    | some g =>
      match parseRecords fs with
      | Except.error e => Except.error e
      | Except.ok gs => Except.ok (g :: gs)

/-- `FilenameAssembler.analyze_files_for_editing`: empty selections
raise; otherwise each of the 14 columns is compared against row 0
(`(info == info[0]).all(axis=0)`), and the representative value is row
0's entry where agreeing and `None` otherwise. -/
def analyze_files_for_editing (filenames : List (List Char)) :
    Except (List Char) (List Bool × List (Option (List Char))) :=
  if filenames.isEmpty then Except.error (str "No filenames provided for analysis")
  else
    match parseRecords filenames with
    | Except.error e => Except.error e
    | Except.ok rows =>
      let first := rows.headD []
      let agree := fun (i : Nat) => rows.all (fun r => r.getD i [] == first.getD i [])
      Except.ok ((List.range 14).map agree,
                 (List.range 14).map (fun i => if agree i then some (first.getD i []) else none))

/-- The per-file parse of `analyze_basic_files_for_editing`: strip a
trailing `_G`/`_N`, split on `_`, require at least 7 parts, and build
the 14-slot row whose first seven (taxonomy) entries are `None`. -/
def parseBasicRecord (f : List Char) : Except (List Char) (List (Option (List Char))) :=
  let b0 := stripDirExt f
  let b := if ends2 b0 '_' 'G' || ends2 b0 '_' 'N' then dropLast2 b0 else b0
  let parts := splitU b
  if parts.length < 7 then Except.error (str "Invalid basic format: " ++ b)
  else
    Except.ok [none, none, none, none, none, none, none,
               some (parts.getD 0 []), some (parts.getD 1 []), some (parts.getD 2 []),
               some (parts.getD 3 []), some (parts.getD 4 []), some (parts.getD 5 []),
               some (joinU (parts.drop 6))]

/-- The loop of `analyze_basic_files_for_editing` over all files. -/
def parseBasicRecords : List (List Char) → Except (List Char) (List (List (Option (List Char))))
  | [] => Except.ok []
  | f :: fs =>
    match parseBasicRecord f with
    | Except.error e => Except.error e
    | Except.ok g =>
      match parseBasicRecords fs with
      | Except.error e => Except.error e
      | Except.ok gs => Except.ok (g :: gs)

/-- `FilenameAssembler.analyze_basic_files_for_editing`: empty
selections raise; the first seven agreement flags stay `False`, columns
7–13 are compared against row 0, and representatives mirror
`analyze_files_for_editing`. -/
def analyze_basic_files_for_editing (filenames : List (List Char)) :
    Except (List Char) (List Bool × List (Option (List Char))) :=
  if filenames.isEmpty then Except.error (str "No filenames provided for analysis")
  else
    match parseBasicRecords filenames with
    | Except.error e => Except.error e
    | Except.ok rows =>
      let first := rows.headD []
      let agree := fun (i : Nat) =>
        decide (7 ≤ i) && rows.all (fun r => r.getD i none == first.getD i none)
      Except.ok ((List.range 14).map agree,
                 (List.range 14).map (fun i => if agree i then first.getD i none else none))

/-- The `{ready}` sentinel line of `exiftool_handler.py`. -/
def READY : List Char := str "\x7bready\x7d"

/-- State of the persistent external-tool session: whether
`self._process` currently holds a live process handle. -/
structure ExifSession where
  alive : Bool
deriving DecidableEq

/-- The read loop of `ExifToolHandler._execute`: the pending output of
the process is modelled as the list of (already newline-stripped) lines
it will deliver; the end of the list is a read returning nothing
(stream closed).  Returns the lines collected before the sentinel and
whether the process died (sentinel never seen). -/
def readUntilReady : List (List Char) → List (List Char) × Bool
  | [] => ([], true)
  | l :: rest =>
    if l == READY then ([], false)
    else
      let (c, d) := readUntilReady rest
      (l :: c, d)

/-- Python `"\n".join(lines)`. -/
def joinNL : List (List Char) → List Char
  | [] => []
  | [l] => l
  | l :: ls => l ++ '\n' :: joinNL ls

/-- `ExifToolHandler._ensure_process`: keep a live process, otherwise
(re)start it; `canStart` models whether `_start_process` succeeds
(executable present and spawn works). -/
def ensure_process (s : ExifSession) (canStart : Bool) : ExifSession × Bool :=
  if s.alive then (s, true) else ({ alive := canStart }, canStart)

/-- `ExifToolHandler._execute`: ensure the process, send the command
(writes have no effect on the model), read until the sentinel; on
stream closure mark the handle dead (`self._process = None`) and return
the newline-join of the lines read so far.  No case raises. -/
def execute (s : ExifSession) (canStart : Bool) (stream : List (List Char)) :
    ExifSession × List Char :=
  let (s1, ok) := ensure_process s canStart
  if !ok then (s1, [])
  else
    let (lines, died) := readUntilReady stream
    ({ alive := !died }, joinNL lines)

/-- File-system paths; the file system itself is the list of paths that
currently exist. -/
abbrev FS := List (List Char)

/-- One iteration of `_undo_last_rename`'s loop on entry
`(old_path, new_path)`: `os.rename(new, old)` happens exactly when the
new path exists and the old one does not; returns the updated file
system and whether the counter was incremented.  (Renames themselves
are modelled as succeeding; the caught `OSError` branch only skips.) -/
def undoStep (fs : FS) (entry : List Char × List Char) : FS × Bool :=
  if entry.2 ∈ fs ∧ entry.1 ∉ fs then (entry.1 :: fs.erase entry.2, true)
  else (fs, false)

/-- `MainWindow._undo_last_rename`: walk `reversed(rename_history)`
applying `undoStep` and counting, then clear the history.  An empty
history returns early ("Nothing to undo"). -/
def undo_last_rename (fs : FS) (hist : List (List Char × List Char)) :
    FS × Nat × List (List Char × List Char) :=
  if hist.isEmpty then (fs, 0, hist)
  else
    let res := hist.reverse.foldl
      (fun acc e =>
        let (fs', did) := undoStep acc.1 e
        (fs', acc.2 + if did then 1 else 0))
      (fs, 0)
    (res.1, res.2, [])

/-- `MainWindow._rename_single_file_basic`, reduced to its effect on
the file system and the undo log: `assembled` models whether the
assembler produced a candidate name (the EXIF date, lookups and
safe-path validation succeeded); a missing source or an existing target
skips; a performed rename appends `(old, new)` to the history.  The
backup-copy / restore mechanics cancel out on the success path and are
not modelled. -/
def rename_single_file_basic (fs : FS) (hist : List (List Char × List Char))
    (oldPath newPath : List Char) (assembled : Bool) :
    FS × List (List Char × List Char) :=
  if !assembled then (fs, hist)
  else if newPath ∈ fs then (fs, hist)
  else if oldPath ∉ fs then (fs, hist)
  else (newPath :: fs.erase oldPath, hist ++ [(oldPath, newPath)])

/-- The batch skeleton of `MainWindow._handle_basic_mode`: clear the
undo log (`self.rename_history.clear()`), then process the batch's
files in order. -/
def handle_basic_mode (fs : FS) (_hist : List (List Char × List Char))
    (batch : List (List Char × List Char × Bool)) :
    FS × List (List Char × List Char) :=
  batch.foldl
    (fun acc e => rename_single_file_basic acc.1 acc.2 e.1 e.2.1 e.2.2)
    (fs, ([] : List (List Char × List Char)))

/-- The Identified-stage name of the spec's scenario. -/
def exampleIdentifiedName : List Char :=
  str "Pomacentridae_Amphiprion_clarkii_B_ok_ad_ty_zz_JDIVE_IDN-Bangka-BTI_2024-01-15_14-30-45_diving_S-A7IV_DSC0001"

/-- The scenario name with the stage tag replaced by `Z`. -/
def zTagName : List Char :=
  str "Pomacentridae_Amphiprion_clarkii_Z_ok_ad_ty_zz_JDIVE_IDN-Bangka-BTI_2024-01-15_14-30-45_diving_S-A7IV_DSC0001"

/-- An Identified file name (with extension) for the batch-diff
scenario. -/
def idNameClarkii : List Char :=
  str "Pomacentridae_Amphiprion_clarkii_B_ok_ad_ty_zz_JDIVE_IDN-Bangka-BTI_2024-01-15_14-30-45_diving_S-A7IV_DSC0001.JPG"

/-- The same name with only the species changed. -/
def idNameOcellaris : List Char :=
  str "Pomacentridae_Amphiprion_ocellaris_B_ok_ad_ty_zz_JDIVE_IDN-Bangka-BTI_2024-01-15_14-30-45_diving_S-A7IV_DSC0001.JPG"

/-- C1: the spec's round-trip property fails on the code.
`assemble_basic_filename` on the scenario inputs produces
`JDIVE_IDN-Bangka-BTI_2024-01-15_14-30-45_diving_S-A7IV_DSC0001_N`,
but `PATTERN_BASIC_FILENAME` — whose suffix alternative is only the
optional `_G`, and which has no capturing groups — does not match the
assembled name at all, so matching can neither succeed nor yield the
field values back. -/
theorem basic_roundtrip_fails_on_assembled_name :
    assemble_basic_filename janeLookup bangkaLookup (str "DSC0001")
        (str "2024-01-15_14-30-45") (str "Jane Diver") (str "Indonesia", str "Bangka")
        (str "diving") (str "S-A7IV") = some exampleBasicName ∧
    regex_match_basic exampleBasicName = false := by
  decide

/-- C2: stage-entry idempotence fails on the code.  Feeding the name
produced by a successful `assemble_basic_filename` call back into
`assemble_basic_filename` does not return `None`: the `_N`-suffixed
name matches neither `PATTERN_BASIC_FILENAME` (which only allows `_G`)
nor `PATTERN_IDENTITY_FILENAME`, so the guard falls through and a
doubly-encoded name is produced. -/
theorem assemble_basic_reencodes_own_output :
    assemble_basic_filename janeLookup bangkaLookup exampleBasicName
        (str "2024-01-15_14-30-45") (str "Jane Diver") (str "Indonesia", str "Bangka")
        (str "diving") (str "S-A7IV") =
      some (str "JDIVE_IDN-Bangka-BTI_2024-01-15_14-30-45_diving_S-A7IV_JDIVEIDN-Bangka-BTI2024-01-1514-30-45divingS-A7IVDSC0001N_N") := by
  decide

/-- C3: on the spec's scenario inputs, with the lookups resolving
`"Jane Diver"` to `"JDIVE"` and `("Indonesia", "Bangka")` to
`"IDN-Bangka-BTI"`, the assembler returns exactly
`JDIVE_IDN-Bangka-BTI_2024-01-15_14-30-45_diving_S-A7IV_DSC0001_N`. -/
theorem assemble_basic_scenario (guc : List Char → List Char)
    (gds : List Char → List Char → List Char)
    (h1 : guc (str "Jane Diver") = str "JDIVE")
    (h2 : gds (str "Indonesia") (str "Bangka") = str "IDN-Bangka-BTI") :
    assemble_basic_filename guc gds (str "DSC0001") (str "2024-01-15_14-30-45")
      (str "Jane Diver") (str "Indonesia", str "Bangka") (str "diving") (str "S-A7IV") =
      some exampleBasicName := by
  have h2' : gds (str "Indonesia", str "Bangka").1 (str "Indonesia", str "Bangka").2 =
      str "IDN-Bangka-BTI" := h2
  unfold assemble_basic_filename
  rw [h1, h2']
  decide

/-- Witness for C3: the scenario lookups satisfy the hypotheses. -/
theorem assemble_basic_scenario_witness :
    assemble_basic_filename janeLookup bangkaLookup (str "DSC0001")
      (str "2024-01-15_14-30-45") (str "Jane Diver") (str "Indonesia", str "Bangka")
      (str "diving") (str "S-A7IV") = some exampleBasicName :=
  assemble_basic_scenario janeLookup bangkaLookup (by decide) (by decide)

/-- C10: both batch analyzers reject an empty selection with a raised
`ValueError` rather than returning an empty or all-true agreement
vector. -/
theorem analyze_empty_selection_raises :
    analyze_files_for_editing [] = Except.error (str "No filenames provided for analysis") ∧
    analyze_basic_files_for_editing [] =
      Except.error (str "No filenames provided for analysis") := by
  constructor <;> rfl

/-- A name ending in `_N` does not end in `_G`. -/
theorem ends2_N_not_G (s : List Char) (h : ends2 s '_' 'N' = true) :
    ends2 s '_' 'G' = false := by
  unfold ends2 at h ⊢
  cases hrev : s.reverse with
  | nil => rw [hrev] at h
  | cons y t =>
    cases t with
    | nil => rw [hrev] at h
    | cons x t' =>
      rw [hrev] at h
      simp only [Bool.and_eq_true, beq_iff_eq] at h
      simp [h.2]

/-- C5: total description of `_construct_gps_filename`.  A trailing
`_N` is replaced by `_G`; a trailing `_G` is kept unchanged (so the
flip is idempotent); a name with neither suffix that matches the basic
or identity grammar gets `_G` appended; every other name is rejected. -/
theorem construct_gps_spec (s : List Char) :
    (ends2 s '_' 'N' = true →
      construct_gps_filename s = some (dropLast2 s ++ ['_', 'G'])) ∧
    (ends2 s '_' 'G' = true → construct_gps_filename s = some s) ∧
    (ends2 s '_' 'N' = false → ends2 s '_' 'G' = false →
      (regex_match_basic s = true ∨ regex_match_identity s = true) →
      construct_gps_filename s = some (s ++ ['_', 'G'])) ∧
    (ends2 s '_' 'N' = false → ends2 s '_' 'G' = false →
      regex_match_basic s = false → regex_match_identity s = false →
      construct_gps_filename s = none) := by
  refine ⟨?_, ?_, ?_, ?_⟩
  · intro hN
    simp [construct_gps_filename, hN, ends2_N_not_G s hN]
  · intro hG
    simp [construct_gps_filename, hG]
  · intro hN hG hmatch
    rcases hmatch with hb | hi
    · by_cases hid : regex_match_identity s = true
      · simp [construct_gps_filename, hN, hG, hid]
      · simp [construct_gps_filename, hN, hG, hb, hid]
    · simp [construct_gps_filename, hN, hG, hi]
  · intro hN hG hb hi
    simp [construct_gps_filename, hN, hG, hb, hi]

/-- Witness for C5: flipping the `_N` marker on the scenario name. -/
theorem construct_gps_spec_witness :
    construct_gps_filename exampleBasicName =
      some (str "JDIVE_IDN-Bangka-BTI_2024-01-15_14-30-45_diving_S-A7IV_DSC0001_G") := by
  have h := (construct_gps_spec exampleBasicName).1 (by decide)
  rw [h]
  decide

/-- A token accepted by the stage-tag class `[A-Z]` is one uppercase
letter. -/
theorem tagOk_shape (t : List Char) (h : tagOk t = true) :
    ∃ c : Char, c.isUpper = true ∧ t = [c] := by
  match t with
  | [] => simp [tagOk] at h
  | [c] => exact ⟨c, by simpa [tagOk] using h, rfl⟩
  | a :: b :: r => simp [tagOk] at h

/-- C6 counterexample: the identity pattern's tag class is `[A-Z]`, not
the literal `B`: the scenario name with tag `Z` is accepted by
`PATTERN_IDENTITY_FILENAME` although its tag token is not `B`. -/
theorem identity_accepts_Z_tag :
    regex_match_identity zTagName = true ∧ (splitU zTagName).getD 3 [] = ['Z'] ∧
    (['Z'] : List Char) ≠ ['B'] := by
  decide

/-- C6 amended: every name accepted by `PATTERN_IDENTITY_FILENAME`
carries a single uppercase letter — any one of `A`–`Z`, not only `B` —
as its fourth underscore-separated token. -/
theorem identity_tag_any_uppercase (s : List Char)
    (h : regex_match_identity s = true) :
    ∃ c : Char, c.isUpper = true ∧ (splitU s).getD 3 [] = [c] := by
  unfold regex_match_identity identityGroups at h
  simp only at h
  split at h
  · simp at h
  · split at h
    case isTrue hcond =>
      simp only [Bool.and_eq_true] at hcond
      exact tagOk_shape _ hcond.1.1.1.1.1.1.1.1.1.1.2
    case isFalse => simp at h

/-- Witness for C6's amended claim at the Identified scenario name. -/
theorem identity_tag_any_uppercase_witness :
    ∃ c : Char, c.isUpper = true ∧ (splitU exampleIdentifiedName).getD 3 [] = [c] :=
  identity_tag_any_uppercase exampleIdentifiedName (by decide)

/-- C7: `assemble_identity_filename` returns `None` on a name that
already matches the identity pattern, and on a name that does not match
the basic pattern; it can only succeed on a Basic-stage name. -/
theorem assemble_identity_stage_ordering
    (existing family genus species confidence phase colour behaviour : List Char) :
    (regex_match_identity existing = true →
      assemble_identity_filename existing family genus species confidence phase
        colour behaviour = none) ∧
    (regex_match_basic existing = false →
      assemble_identity_filename existing family genus species confidence phase
        colour behaviour = none) := by
  constructor
  · intro h
    simp [assemble_identity_filename, h]
  · intro h
    by_cases hid : regex_match_identity existing = true
    · simp [assemble_identity_filename, hid]
    · simp [assemble_identity_filename, hid, h]

/-- Witness for C7: an Unclassified name is rejected. -/
theorem assemble_identity_stage_ordering_witness :
    assemble_identity_filename (str "DSC0001") (str "Pomacentridae")
      (str "Amphiprion") (str "clarkii") (str "ok") (str "ad") (str "ty")
      (str "zz") = none :=
  (assemble_identity_stage_ordering (str "DSC0001") (str "Pomacentridae")
    (str "Amphiprion") (str "clarkii") (str "ok") (str "ad") (str "ty")
    (str "zz")).2 (by decide)

/-- When the stream never delivers the sentinel, the read loop
collects every line and reports the process dead. -/
theorem readUntilReady_no_sentinel (stream : List (List Char))
    (h : READY ∉ stream) : readUntilReady stream = (stream, true) := by
  induction stream with
  | nil => rfl
  | cons l rest ih =>
    have hl : l ≠ READY := fun e => h (e ▸ List.mem_cons_self l rest)
    have hr : READY ∉ rest := fun m => h (List.mem_cons_of_mem _ m)
    simp [readUntilReady, hl, ih hr]

/-- C8 counterexample: a stream that delivers one line and then closes
makes `_execute` return that line — a non-empty result — although the
ready sentinel was never seen, contradicting the claim that such a call
returns an empty result. -/
theorem execute_partial_output_not_empty :
    (execute ⟨true⟩ true [str "foo"]).2 = str "foo" ∧
    (execute ⟨true⟩ true [str "foo"]).1.alive = false ∧
    str "foo" ≠ ([] : List Char) := by
  decide

/-- C8 amended: if the output stream closes before the ready sentinel
appears, `_execute` returns the newline-join of the lines read so far
(empty when the stream closes immediately), marks the process handle
dead, and the next call's `_ensure_process` performs a fresh start; no
exception reaches the caller (every outcome is an ordinary return). -/
theorem execute_death_spec (stream : List (List Char)) (h : READY ∉ stream) :
    execute ⟨true⟩ true stream = (⟨false⟩, joinNL stream) ∧
    ensure_process ⟨false⟩ true = (⟨true⟩, true) := by
  constructor
  · simp [execute, ensure_process, readUntilReady_no_sentinel stream h]
  · rfl

/-- Witness for C8's amended claim: the one-line sentinel-free
stream. -/
theorem execute_death_spec_witness :
    execute ⟨true⟩ true [str "foo"] = (⟨false⟩, joinNL [str "foo"]) ∧
    ensure_process ⟨false⟩ true = (⟨true⟩, true) :=
  execute_death_spec [str "foo"] (by decide)

/-- The counter component of the undo loop does not affect the
file-system component. -/
theorem undoFold_fst (l : List (List Char × List Char)) (fs : FS) (k : Nat) :
    (l.foldl
      (fun acc e =>
        let (fs', did) := undoStep acc.1 e
        (fs', acc.2 + if did then 1 else 0))
      (fs, k)).1 = l.foldl (fun f e => (undoStep f e).1) fs := by
  induction l generalizing fs k with
  | nil => rfl
  | cons e l ih => simp only [List.foldl_cons]; exact ih _ _

/-- A single `_rename_single_file_basic` call either leaves the undo
log unchanged or appends exactly its own `(old, new)` pair. -/
theorem rename_single_hist (fs : FS) (h0 : List (List Char × List Char))
    (o n : List Char) (a : Bool) :
    (rename_single_file_basic fs h0 o n a).2 = h0 ∨
    (rename_single_file_basic fs h0 o n a).2 = h0 ++ [(o, n)] := by
  unfold rename_single_file_basic
  split
  · exact Or.inl rfl
  · split
    · exact Or.inl rfl
    · split
      · exact Or.inl rfl
      · exact Or.inr rfl

/-- Every entry of the undo log built by the batch fold comes from the
starting log or from the batch itself. -/
theorem handle_fold_entries (batch : List (List Char × List Char × Bool))
    (st : FS × List (List Char × List Char)) (e : List Char × List Char)
    (he : e ∈ (batch.foldl
      (fun acc b => rename_single_file_basic acc.1 acc.2 b.1 b.2.1 b.2.2)
      st).2) :
    e ∈ st.2 ∨ ∃ b ∈ batch, b.1 = e.1 ∧ b.2.1 = e.2 := by
  induction batch generalizing st with
  | nil => exact Or.inl he
  | cons b bs ih =>
    simp only [List.foldl_cons] at he
    rcases ih _ he with hmem | ⟨b', hb', hvals⟩
    · rcases rename_single_hist st.1 st.2 b.1 b.2.1 b.2.2 with hh | hh
      · rw [hh] at hmem
        exact Or.inl hmem
      · rw [hh] at hmem
        rcases List.mem_append.1 hmem with hmem0 | hmem1
        · exact Or.inl hmem0
        · refine Or.inr ⟨b, List.mem_cons_self b bs, ?_⟩
          have heq : e = (b.1, b.2.1) := List.mem_singleton.1 hmem1
          rw [heq]
          exact ⟨rfl, rfl⟩
    · exact Or.inr ⟨b', List.mem_cons_of_mem b hb', hvals⟩

/-- C9: the undo contract.  (1) The file system produced by
`_undo_last_rename` is the right fold of `undoStep` over the history —
entries are processed in strict reverse (LIFO) order of their
appending.  (2) The history is empty after an undo.  (3) A single undo
entry renames `newPath` back to `oldPath` exactly when the new path
exists and the old one does not, and otherwise changes nothing.  (4)
The batch handler's result is independent of any previously recorded
history (the log is cleared at the start of the batch), and (5) every
entry of the log it leaves behind stems from the batch just processed,
so only the latest batch is undoable. -/
theorem undo_contract (fs : FS) (hist : List (List Char × List Char)) :
    (undo_last_rename fs hist).1 = hist.foldr (fun e f => (undoStep f e).1) fs ∧
    (undo_last_rename fs hist).2.2 = [] ∧
    (∀ o n : List Char,
      (n ∈ fs ∧ o ∉ fs → undoStep fs (o, n) = (o :: fs.erase n, true)) ∧
      (¬(n ∈ fs ∧ o ∉ fs) → undoStep fs (o, n) = (fs, false))) ∧
    (∀ (hist' : List (List Char × List Char))
        (batch : List (List Char × List Char × Bool)),
      handle_basic_mode fs hist batch = handle_basic_mode fs hist' batch) ∧
    (∀ (batch : List (List Char × List Char × Bool)) (e : List Char × List Char),
      e ∈ (handle_basic_mode fs hist batch).2 →
      ∃ b ∈ batch, b.1 = e.1 ∧ b.2.1 = e.2) := by
  refine ⟨?_, ?_, ?_, ?_, ?_⟩
  · unfold undo_last_rename
    cases hist with
    | nil => rfl
    | cons p l =>
      simp only [List.isEmpty_cons, if_false, Bool.false_eq_true]
      rw [undoFold_fst, List.foldl_reverse]
  · unfold undo_last_rename
    cases hist with
    | nil => rfl
    | cons p l => rfl
  · intro o n
    constructor
    · intro hc
      simp [undoStep, hc]
    · intro hc
      simp [undoStep, hc]
  · intro hist' batch
    rfl
  · intro batch e he
    rcases handle_fold_entries batch (fs, []) e he with h0 | hb
    · exact absurd h0 (List.not_mem_nil e)
    · exact hb

/-- Witness for C9: a concrete one-entry history where the new path
exists and the old one does not, and a concrete one-file batch whose
log entry stems from that batch. -/
theorem undo_contract_witness :
    undoStep [str "b"] (str "a", str "b") = (str "a" :: (([str "b"] : FS).erase (str "b")), true) ∧
    (∃ b ∈ [(str "x", str "y", true)], b.1 = (str "x", str "y").1 ∧ b.2.1 = (str "x", str "y").2) := by
  constructor
  · exact ((undo_contract [str "b"] []).2.2.1 (str "a") (str "b")).1 ⟨by decide, by decide⟩
  · exact (undo_contract [str "x"] []).2.2.2.2 [(str "x", str "y", true)]
      (str "x", str "y") (by decide)

/-- If some selected name fails the identity parse, the per-file loop
raises. -/
theorem parseRecords_error_of_fail (names : List (List Char))
    (hex : ∃ n ∈ names, identityGroups (stripDirExt n) = none) :
    ∃ e, parseRecords names = Except.error e := by
  induction names with
  | nil =>
    rcases hex with ⟨n, hn, _⟩
    exact absurd hn (List.not_mem_nil n)
  | cons f fs ih =>
    rcases hex with ⟨n, hn, hfail⟩
    rcases List.mem_cons.1 hn with rfl | hn'
    · exact ⟨str "Invalid filename format: " ++ stripDirExt n,
        by simp [parseRecords, hfail]⟩
    · cases hg : identityGroups (stripDirExt f) with
      | none => exact ⟨str "Invalid filename format: " ++ stripDirExt f,
          by simp [parseRecords, hg]⟩
      | some g =>
        obtain ⟨e, he⟩ := ih ⟨n, hn', hfail⟩
        exact ⟨e, by simp [parseRecords, hg, he]⟩

/-- A successful parse yields one record per selected name. -/
theorem parseRecords_length (names : List (List Char))
    (rows : List (List (List Char))) (h : parseRecords names = Except.ok rows) :
    rows.length = names.length := by
  induction names generalizing rows with
  | nil =>
    simp only [parseRecords] at h
    cases h
    rfl
  | cons f fs ih =>
    unfold parseRecords at h
    cases hg : identityGroups (stripDirExt f) with
    | none => rw [hg] at h; cases h
    | some g =>
      rw [hg] at h
      cases hr : parseRecords fs with
      | error e => rw [hr] at h; cases h
      | ok gs =>
        rw [hr] at h
        cases h
        simp [ih gs hr]

/-- Agreement with row 0 across the whole selection is the same as
pairwise agreement. -/
theorem all_head_iff_pairwise (rows : List (List (List Char)))
    (hne : rows ≠ []) (i : Nat) :
    (rows.all (fun r => r.getD i [] == (rows.headD []).getD i []) = true) ↔
    ∀ r ∈ rows, ∀ r' ∈ rows, r.getD i [] = r'.getD i [] := by
  cases rows with
  | nil => exact absurd rfl hne
  | cons a l =>
    simp only [List.all_eq_true, List.headD_cons, beq_iff_eq]
    constructor
    · intro h r hr r' hr'
      rw [h r hr, h r' hr']
    · intro h r hr
      exact h r hr a (List.mem_cons_self a l)

/-- Reading position `i < n` out of a mapped range. -/
theorem rangeMap_getD {α : Type} (f : Nat → α) (n i : Nat) (d : α) (h : i < n) :
    ((List.range n).map f).getD i d = f i := by
  simp [List.getD_eq_getElem?_getD, List.getElem?_map, List.getElem?_range, h]

/-- C4: batch-diff correctness of `analyze_files_for_editing` on every
non-empty selection.  If any name (directory and extension dropped)
fails the identity grammar, the analysis raises a `ValueError` and
produces no result at all; on success, the agreement flag at field
position `i` is true exactly when all parsed records carry an identical
value there, and the representative at `i` is that common value when
agreeing and `None` otherwise. -/
theorem analyze_files_spec (names : List (List Char)) (hne : names ≠ []) :
    ((∃ n ∈ names, identityGroups (stripDirExt n) = none) →
      ∃ e, analyze_files_for_editing names = Except.error e) ∧
    (∀ flags vals, analyze_files_for_editing names = Except.ok (flags, vals) →
      ∃ rows, parseRecords names = Except.ok rows ∧ rows ≠ [] ∧
        ∀ i, i < 14 →
          ((flags.getD i false = true) ↔
            ∀ r ∈ rows, ∀ r' ∈ rows, r.getD i [] = r'.getD i []) ∧
          (flags.getD i false = true → ∀ r ∈ rows, vals.getD i none = some (r.getD i [])) ∧
          (flags.getD i false = false → vals.getD i none = none)) := by
  have hne' : names.isEmpty = false := by
    cases names with
    | nil => exact absurd rfl hne
    | cons a l => rfl
  constructor
  · intro hex
    obtain ⟨e, he⟩ := parseRecords_error_of_fail names hex
    exact ⟨e, by simp [analyze_files_for_editing, hne', he]⟩
  · intro flags vals h
    unfold analyze_files_for_editing at h
    rw [hne'] at h
    simp only [Bool.false_eq_true, if_false] at h
    cases hp : parseRecords names with
    | error e => rw [hp] at h; cases h
    | ok rows =>
      rw [hp] at h
      simp only [Except.ok.injEq, Prod.mk.injEq] at h
      obtain ⟨hflags, hvals⟩ := h
      have hrne : rows ≠ [] := by
        intro hr
        have := parseRecords_length names rows hp
        rw [hr] at this
        cases names with
        | nil => exact hne rfl
        | cons a l => simp at this
      refine ⟨rows, rfl, hrne, fun i hi => ?_⟩
      have hfa : flags.getD i false =
          rows.all (fun r => r.getD i [] == (rows.headD []).getD i []) := by
        rw [← hflags, rangeMap_getD _ 14 i false hi]
      have hva : vals.getD i none =
          (if rows.all (fun r => r.getD i [] == (rows.headD []).getD i [])
           then some ((rows.headD []).getD i []) else none) := by
        rw [← hvals, rangeMap_getD _ 14 i none hi]
      refine ⟨?_, ?_, ?_⟩
      · rw [hfa]
        exact all_head_iff_pairwise rows hrne i
      · intro ht r hr
        rw [hfa] at ht
        rw [hva, if_pos ht]
        have hpair := (all_head_iff_pairwise rows hrne i).1 ht
        have hhead : rows.headD [] ∈ rows := by
          cases rows with
          | nil => exact absurd rfl hrne
          | cons a l => exact List.mem_cons_self a l
        rw [hpair (rows.headD []) hhead r hr]
      · intro hf
        rw [hfa] at hf
        rw [hva, if_neg]
        rw [hf]
        decide

set_option maxRecDepth 8192 in
/-- Witness for C4: a selection with one ill-formed name raises, and
the spec's two-name selection (identical but for the species) agrees
everywhere except at field 2. -/
theorem analyze_files_spec_witness :
    (∃ e, analyze_files_for_editing [str "badname.JPG"] = Except.error e) ∧
    (∃ rows, parseRecords [idNameClarkii, idNameOcellaris] = Except.ok rows ∧ rows ≠ [] ∧
      ∀ i, i < 14 →
        (([true, true, false, true, true, true, true, true, true, true, true, true,
           true, true].getD i false = true) ↔
          ∀ r ∈ rows, ∀ r' ∈ rows, r.getD i [] = r'.getD i []) ∧
        ([true, true, false, true, true, true, true, true, true, true, true, true,
          true, true].getD i false = true →
          ∀ r ∈ rows,
            [some (str "Pomacentridae"), some (str "Amphiprion"), none, some (str "ok"),
             some (str "ad"), some (str "ty"), some (str "zz"), some (str "JDIVE"),
             some (str "IDN-Bangka-BTI"), some (str "2024-01-15"), some (str "14-30-45"),
             some (str "diving"), some (str "S-A7IV"),
             some (str "DSC0001")].getD i none = some (r.getD i [])) ∧
        ([true, true, false, true, true, true, true, true, true, true, true, true,
          true, true].getD i false = false →
          [some (str "Pomacentridae"), some (str "Amphiprion"), none, some (str "ok"),
           some (str "ad"), some (str "ty"), some (str "zz"), some (str "JDIVE"),
           some (str "IDN-Bangka-BTI"), some (str "2024-01-15"), some (str "14-30-45"),
           some (str "diving"), some (str "S-A7IV"),
           some (str "DSC0001")].getD i none = none)) := by
  constructor
  · exact (analyze_files_spec [str "badname.JPG"] (by decide)).1
      ⟨str "badname.JPG", by decide, by decide⟩
  · exact (analyze_files_spec [idNameClarkii, idNameOcellaris] (by decide)).2
      [true, true, false, true, true, true, true, true, true, true, true, true,
       true, true]
      [some (str "Pomacentridae"), some (str "Amphiprion"), none, some (str "ok"),
       some (str "ad"), some (str "ty"), some (str "zz"), some (str "JDIVE"),
       some (str "IDN-Bangka-BTI"), some (str "2024-01-15"), some (str "14-30-45"),
       some (str "diving"), some (str "S-A7IV"), some (str "DSC0001")]
      (by rfl)

end FishRenamer
